import Mathlib

/-!
Verification of the FlickerTag_CD annotation tool (`flicker_tag_cd.py`)
against its natural-language specification.

The development shallowly embeds the program's core logic:
* the filename-based pair scheduler of `FlickerTag_GUI.auto_load`
  (string splitting on naming tags, target/output name derivation,
  done/pending/unknown classification);
* the coordinate mapper `lin_trans` and the polygon export
  `FlickerTag_GUI.get_scaled_polygons` (rational arithmetic for the
  exact linear map; truncation toward zero models the write-back of the
  mapped value into an integer array);
* the polygon editor state of `CustomPolygonDrawPanel`
  (`mousePressEvent`, `do_undo`, `clear`) as a step function over an
  explicit state record;
* the save path `FlickerTag_GUI.proc_results` as a function from its
  inputs to an outcome record (warning flag, written record, editor state);
* the persisted result format of `proc_results`/`display_results`
  (skip sentinel or polygon/tag list) with an executable
  serializer/deserializer modelled from the spec, since the actual codec
  (`pickle`) is library code outside this repository.
-/

namespace FlickerTag

/-! ## Python string helpers

`str.split(sep)`, substring containment (`sep in s`) and
`os.path.splitext` are modelled over `List Char`, faithful to CPython's
semantics for a non-empty separator: repeatedly cut at the leftmost
occurrence of the separator. -/

/-- Leftmost occurrence of the non-empty separator `sc :: sep` in a
character list: returns the part before the separator and the part after
it, or `none` when the separator does not occur. -/
def splitFirst (sc : Char) (sep : List Char) : List Char → Option (List Char × List Char)
  | [] => none
  | c :: cs =>
    if (sc :: sep).isPrefixOf (c :: cs) then some ([], cs.drop sep.length)
    else
      match splitFirst sc sep cs with
      | some (pre, post) => some (c :: pre, post)
      | none => none

/-- Repeatedly split at the leftmost separator occurrence.  The fuel
argument (instantiated with the length of the string, an upper bound on
the number of cuts) keeps the recursion structural. -/
def splitAll (sc : Char) (sep : List Char) : Nat → List Char → List (List Char)
  | 0, s => [s]
  | fuel + 1, s =>
    match splitFirst sc sep s with
    | none => [s]
    | some (pre, post) => pre :: splitAll sc sep fuel post

/-- Python `s.split(sep)` for a non-empty separator (the degenerate
empty separator, which raises in Python, is never used here). -/
def pySplit (sep s : String) : List String :=
  match sep.data with
  | [] => [s]
  | sc :: sepRest => (splitAll sc sepRest s.data.length s.data).map List.asString

/-- Python `sep in s` (substring containment). -/
def pyContains (sep s : String) : Bool :=
  match sep.data with
  | [] => true
  | sc :: sepRest => (splitFirst sc sepRest s.data).isSome

/-- Index of the last occurrence of `c` in `l`, if any. -/
def lastIdxOf (c : Char) (l : List Char) : Option Nat :=
  (l.reverse.findIdx? (fun x => x = c)).map (fun i => l.length - 1 - i)

/-- Python `os.path.splitext(s)[0]` for a path without directory
separators: cut at the last dot, provided some earlier character of the
name is not itself a dot (so `.bashrc`-style names keep their dot). -/
def splitextRoot (s : String) : String :=
  match lastIdxOf '.' s.data with
  | none => s
  | some d =>
    if (s.data.take d).any (fun c => c ≠ '.') then List.asString (s.data.take d) else s

/-! ## PairScheduler: `auto_load` name derivation and classification -/

/-- Tag identifying reference images (module constant `a_tag`). -/
def a_tag : String := "_2018_"

/-- Tag identifying target images (module constant `b_tag`). -/
def b_tag : String := "_2020_"

/-- Tag denoting results (module constant `out_tag`). -/
def out_tag : String := "_2018-2020_"

/-- Derivation of the expected target and (pre-`splitext`) output names
for one reference filename, mirroring `auto_load` lines 534–543: split
on `a_tag`; with exactly two parts substitute `b_tag` (resp. `out_tag`)
for the tag; otherwise rebuild the name joining the remaining segments
with `a_tag` after a first `b_tag`, and split the result on `b_tag` to
place `out_tag`. -/
def target_and_out_names (a_f : String) : String × String :=
  let a_f_split := pySplit a_tag a_f
  if a_f_split.length = 2 then
    (a_f_split.getD 0 "" ++ b_tag ++ a_f_split.getD 1 "",
     a_f_split.getD 0 "" ++ out_tag ++ a_f_split.getD 1 "")
  else
    let target0 := a_f_split.getD 0 "" ++ b_tag
    let target1 := (a_f_split.drop 1).foldl (fun acc seg => acc ++ seg ++ a_tag) target0
    let target_name := target1.dropRight a_tag.length
    let tsplit := pySplit b_tag target_name
    (target_name, tsplit.getD 0 "" ++ out_tag ++ tsplit.getD 1 "")

/-- Final derived output-record name: `os.path.splitext(out_name)[0] + '.pickle'`
(line 544). -/
def out_record_name (a_f : String) : String :=
  splitextRoot (target_and_out_names a_f).2 ++ ".pickle"

/-- Status of one reference file in the `auto_load` scan. -/
inductive PairStatus where
  | done
  | pending
  | unknown
deriving DecidableEq

/-- Classification of one reference filename given the (already
`b_tag`-filtered) target listing and the output listing, mirroring the
branch structure of `auto_load` lines 545–553: the to-do branch fires
when the target name is listed and the output name is not; the done
branch when the target name is listed (and the first branch did not
fire); otherwise the file is counted as unknown. -/
def classify_ref (a_f : String) (b_files out_files : List String) : PairStatus :=
  let target_name := (target_and_out_names a_f).1
  let out_name := out_record_name a_f
  if target_name ∈ b_files ∧ out_name ∉ out_files then .pending
  else if target_name ∈ b_files then .done
  else .unknown

example : pySplit "_2018_" "x_2018_y.png" = ["x", "y.png"] := by decide

example : target_and_out_names "x_2018_y.png" = ("x_2020_y.png", "x_2018-2020_y.png") := by decide

example : out_record_name "x_2018_y.png" = "x_2018-2020_y.pickle" := by decide

example : classify_ref "site1_2018_A.png" ["site1_2020_A.png"] [] = .pending := by decide

example : classify_ref "site1_2018_A.png" ["site1_2020_A.png"] ["site1_2018-2020_A.pickle"] = .done := by decide

example :
    target_and_out_names "x_2018_y_2018_z.png" =
      ("x_2020_y_2018_z.png", "x_2018-2020_y_2018_z.png") := by decide

/-! ## CoordinateMapper: `lin_trans` and `get_scaled_polygons`

Coordinates are embedded as integers (Qt pixel positions) and the
mapping is carried out in exact rational arithmetic.  Writing the mapped
value back into the integer point array (`point[0] = lin_trans(...)` on
a NumPy integer array) truncates toward zero, modelled by `truncQ`. -/

/-- The linear axis transform defined inside `get_scaled_polygons`
(lines 595–596). -/
def lin_trans (val old_min old_max new_min new_max : ℚ) : ℚ :=
  new_min + (new_max - new_min) * ((val - old_min) / (old_max - old_min))

/-- Truncation toward zero, the conversion applied when a mapped value
is stored back into an integer coordinate array. -/
def truncQ (q : ℚ) : ℤ :=
  if 0 ≤ q then ⌊q⌋ else -⌊-q⌋

/-- The polygon export `get_scaled_polygons` (lines 592–614).  Image
width/height (queried from the target pixmap in the source) and the
panel extent `r_size` are passed as integer parameters.  Both panel
dimensions are first replaced by `min panel_w panel_h` (line 604), then
every point of every polygon is mapped per axis with `lin_trans` from
`0..panel extent` to `0..image extent` and truncated back into the
integer array.  Returns the scaled polygons together with the image
height and width, in the source's return order. -/
def get_scaled_polygons (image_width image_height : ℤ) (polygons : List (List (ℤ × ℤ)))
    (panel_w panel_h : ℤ) : List (List (ℤ × ℤ)) × ℤ × ℤ :=
  let m : ℤ := min panel_w panel_h
  let scaled := polygons.map (fun poly =>
    poly.map (fun pt =>
      (truncQ (lin_trans (pt.1 : ℚ) 0 (m : ℚ) 0 (image_width : ℚ)),
       truncQ (lin_trans (pt.2 : ℚ) 0 (m : ℚ) 0 (image_height : ℚ)))))
  (scaled, image_height, image_width)

/-- Follows the spec's words (§4.2): both axes are normalized against
the shared square extent `min(panelWidth, panelHeight)` before mapping
to the (possibly non-square) image extent; for comparison with the
source export `get_scaled_polygons`. -/
def squareExtentExport (image_width image_height : ℤ) (polygons : List (List (ℤ × ℤ)))
    (panel_w panel_h : ℤ) : List (List (ℤ × ℤ)) :=
  polygons.map (fun poly =>
    poly.map (fun pt =>
      (truncQ (lin_trans (pt.1 : ℚ) 0 ((min panel_w panel_h : ℤ) : ℚ) 0 (image_width : ℚ)),
       truncQ (lin_trans (pt.2 : ℚ) 0 ((min panel_w panel_h : ℤ) : ℚ) 0 (image_height : ℚ)))))

/-- The foil the spec rules out: each axis normalized against its own
raw panel dimension instead of the shared square extent. -/
def rawExtentExport (image_width image_height : ℤ) (polygons : List (List (ℤ × ℤ)))
    (panel_w panel_h : ℤ) : List (List (ℤ × ℤ)) :=
  polygons.map (fun poly =>
    poly.map (fun pt =>
      (truncQ (lin_trans (pt.1 : ℚ) 0 (panel_w : ℚ) 0 (image_width : ℚ)),
       truncQ (lin_trans (pt.2 : ℚ) 0 (panel_h : ℚ) 0 (image_height : ℚ)))))

/-- Modelled from the spec: §4.2 and §7 require an implementation of the
mapper to guard the degenerate case `oldMax == oldMin` (zero-size panel)
and report it as a transform error instead of dividing by zero; spec-worded
guarded variant, for comparison with the source's `lin_trans`. -/
def mapAxisGuarded (val old_min old_max new_min new_max : ℚ) : Option ℚ :=
  if old_max = old_min then none
  else some (lin_trans val old_min old_max new_min new_max)

/-! ## PolygonEditor: `CustomPolygonDrawPanel` state -/

/-- Mutable state of `CustomPolygonDrawPanel` relevant to annotation:
committed polygons, candidate points, the backing image (if any), the
per-polygon class tags, and the active class. -/
structure EditorState where
  poly_collection : List (List (ℤ × ℤ))
  candidate_poly_points : List (ℤ × ℤ)
  current_back : Option String
  poly_class : List String
  current_class : String
deriving DecidableEq

/-- `CustomPolygonDrawPanel.clear` (lines 162–168). -/
def editor_clear (s : EditorState) : EditorState :=
  { s with poly_collection := [], candidate_poly_points := [],
           current_back := none, poly_class := [] }

/-- `CustomPolygonDrawPanel.do_undo` (lines 170–179): drop the candidate
points when present, otherwise drop the last committed polygon together
with its class tag (`refresh_panel` touches none of these fields). -/
def do_undo (s : EditorState) : EditorState :=
  if s.candidate_poly_points.length > 0 then
    { s with candidate_poly_points := [] }
  else if s.poly_collection.length > 0 then
    { s with poly_collection := s.poly_collection.dropLast,
             poly_class := s.poly_class.dropLast }
  else s

/-- Editor operations: a left click adds a candidate point, a right
click commits the candidate points under the active class
(`mousePressEvent`, lines 214–225, both guarded on a loaded backing
image), the combobox changes the active class, the undo button calls
`do_undo`, `clear` resets the panel, and loading an image sets the
backing image. -/
inductive EditorOp where
  | leftClick (p : ℤ × ℤ)
  | rightClick
  | setClass (c : String)
  | undoBtn
  | clearPanel
  | loadImage (path : String)

/-- One editor step. -/
def editor_step (s : EditorState) (op : EditorOp) : EditorState :=
  match op with
  | .leftClick p =>
    if s.current_back.isSome then
      { s with candidate_poly_points := s.candidate_poly_points ++ [p] }
    else s
  | .rightClick =>
    if s.current_back.isSome then
      { s with poly_collection := s.poly_collection ++ [s.candidate_poly_points],
               poly_class := s.poly_class ++ [s.current_class],
               candidate_poly_points := [] }
    else s
  | .setClass c => { s with current_class := c }
  | .undoBtn => do_undo s
  | .clearPanel => editor_clear s
  | .loadImage path => { s with current_back := some path }

/-- Editor state at panel creation: all collections empty, no backing
image, active class as supplied by the GUI. -/
def initEditor (current_class : String) : EditorState :=
  ⟨[], [], none, [], current_class⟩

/-! ## ResultStore: the persisted record -/

/-- The value `proc_results` persists: either the literal skip sentinel
string, or the ordered list of `[scaled polygon, class tag]` entries. -/
inductive SerializedResult where
  | skipped
  | annotated (entries : List (List (ℤ × ℤ) × String))
deriving DecidableEq

/-- The skip sentinel written by the Skip button path of `proc_results`. -/
def skip_sentinel : String := "skipped by annotator"

/-- Flat record token: pickle stores integers and strings atomically. -/
inductive Tok where
  | int (n : ℤ)
  | str (s : String)
deriving DecidableEq

/-- Modelled from the spec: `proc_results` persists the result with
`pickle.dump` and `display_results` reads it back with `pickle.load`
(§4.4 ResultStore); the pickle codec itself is Python library code
outside this repository, so the binary record format is modelled as a
length-prefixed flat token stream.  Point encoding: x then y. -/
def encodePoints (pts : List (ℤ × ℤ)) : List Tok :=
  (pts.map (fun pt => [Tok.int pt.1, Tok.int pt.2])).flatten

/-- Modelled from the spec (§4.4): one `[polygonPoints, classTag]` entry
as a point count, the flattened points, and the tag. -/
def encodeEntry (e : List (ℤ × ℤ) × String) : List Tok :=
  Tok.int e.1.length :: (encodePoints e.1 ++ [Tok.str e.2])

/-- Modelled from the spec (§4.4): `save` for the whole record — the
skip sentinel as a bare string token, or an entry count followed by the
encoded entries. -/
def save (r : SerializedResult) : List Tok :=
  match r with
  | .skipped => [Tok.str skip_sentinel]
  | .annotated es => Tok.int es.length :: (es.map encodeEntry).flatten

/-- Modelled from the spec (§4.4): read back `n` points. -/
def decodePoints : Nat → List Tok → Option (List (ℤ × ℤ) × List Tok)
  | 0, ts => some ([], ts)
  | k + 1, Tok.int x :: Tok.int y :: ts =>
    (decodePoints k ts).map (fun pr => ((x, y) :: pr.1, pr.2))
  | _ + 1, _ => none

/-- Modelled from the spec (§4.4): read back one entry. -/
def decodeEntry : List Tok → Option ((List (ℤ × ℤ) × String) × List Tok)
  | Tok.int n :: ts =>
    (decodePoints n.toNat ts).bind (fun pr =>
      match pr.2 with
      | Tok.str tag :: rest => some ((pr.1, tag), rest)
      | _ => none)
  | _ => none

/-- Modelled from the spec (§4.4): read back `n` entries. -/
def decodeEntries : Nat → List Tok → Option (List (List (ℤ × ℤ) × String) × List Tok)
  | 0, ts => some ([], ts)
  | k + 1, ts =>
    (decodeEntry ts).bind (fun pr =>
      (decodeEntries k pr.2).map (fun qr => (pr.1 :: qr.1, qr.2)))

/-- Modelled from the spec (§4.4): `load` reconstructs the persisted
value — the sentinel, or the annotated entry list — failing on any
malformed record. -/
def load (ts : List Tok) : Option SerializedResult :=
  match ts with
  | [Tok.str s] => if s = skip_sentinel then some .skipped else none
  | Tok.int n :: rest =>
    (decodeEntries n.toNat rest).bind (fun pr =>
      if pr.2 = [] then some (.annotated pr.1) else none)
  | _ => none

/-! ## Save path: `proc_results` -/

/-- Observable outcome of one `proc_results` invocation: whether the
blocking warning was raised, which record (if any) was written to which
path, and the editor state afterwards. -/
structure ProcOutcome where
  warned : Bool
  written : Option (String × SerializedResult)
  editor : EditorState
deriving DecidableEq

/-- The save path `proc_results` (lines 564–590), after the output path
has been resolved (`path_OUT` is preset in automatic mode and comes from
the save dialog otherwise).  No target selected (`path_B` empty) raises
the blocking warning and does nothing else; otherwise, with a non-empty
output path, the skip sentinel or the scaled polygon/tag list is written
(in automatic mode the display is then reset for the next pair);
otherwise the call silently does nothing. -/
def proc_results (auto_mode : Bool) (path_B path_OUT : String) (ed : EditorState)
    (skipped : Bool) (image_w image_h panel_w panel_h : ℤ) : ProcOutcome :=
  if path_B = "" then
    { warned := true, written := none, editor := ed }
  else if path_OUT ≠ "" then
    let results : SerializedResult :=
      if skipped then .skipped
      else .annotated
        (((get_scaled_polygons image_w image_h ed.poly_collection panel_w panel_h).1).zip
          ed.poly_class)
    { warned := false, written := some (path_OUT, results),
      editor := if auto_mode then editor_clear ed else ed }
  else
    { warned := false, written := none, editor := ed }

/-! ## Theorems -/

/-- C5: for all `oldMin < oldMax` and `newMin < newMax`, the axis
mapping `lin_trans` is strictly monotonic increasing in the value, maps
`oldMin` to `newMin`, and maps `oldMax` to `newMax`. -/
theorem lin_trans_monotone_and_endpoints (om oM nm nM : ℚ) (h1 : om < oM) (h2 : nm < nM) :
    (∀ v1 v2 : ℚ, v1 < v2 → lin_trans v1 om oM nm nM < lin_trans v2 om oM nm nM) ∧
    lin_trans om om oM nm nM = nm ∧ lin_trans oM om oM nm nM = nM := by
  refine ⟨?_, ?_, ?_⟩
  · intro v1 v2 hv
    unfold lin_trans
    have hd : (0 : ℚ) < oM - om := by linarith
    have h3 : (v1 - om) / (oM - om) < (v2 - om) / (oM - om) :=
      div_lt_div_of_pos_right (by linarith) hd
    have h4 : (0 : ℚ) < nM - nm := by linarith
    nlinarith [mul_lt_mul_of_pos_left h3 h4]
  · unfold lin_trans
    simp
  · unfold lin_trans
    rw [div_self (sub_ne_zero.mpr h1.ne')]
    ring

/-- C5 witness: the mapping over `0..1 → 0..2` at concrete inputs. -/
theorem lin_trans_monotone_and_endpoints_witness :
    lin_trans 0 0 1 0 2 = 0 ∧ lin_trans 1 0 1 0 2 = 2 ∧
    lin_trans (1 / 2) 0 1 0 2 < lin_trans 1 0 1 0 2 := by
  have h := lin_trans_monotone_and_endpoints 0 1 0 2 (by norm_num) (by norm_num)
  exact ⟨h.2.1, h.2.2, h.1 (1 / 2) 1 (by norm_num)⟩

/-- C3 counterexample: with a 400×400 panel and an 800×600 image the
export maps `(10,10)` to `(20,15)` — the y axis is mapped over `0..400`
to `0..600`, giving `10·600/400 = 15` — not to `(20,20)` as claimed. -/
theorem get_scaled_maps_ten_ten_counterexample :
    (get_scaled_polygons 800 600 [[((10 : ℤ), (10 : ℤ))]] 400 400).1 = [[(20, 15)]] ∧
    ([[((20 : ℤ), (15 : ℤ))]] : List (List (ℤ × ℤ))) ≠ [[(20, 20)]] := by
  constructor
  · show [[(truncQ (lin_trans 10 0 ((min (400 : ℤ) 400 : ℤ) : ℚ) 0 800),
            truncQ (lin_trans 10 0 ((min (400 : ℤ) 400 : ℤ) : ℚ) 0 600))]] = [[(20, 15)]]
    norm_num [truncQ, lin_trans]
  · decide

/-- C3 (amended): with a 400×400 panel and an 800×600 image, the point
`(10,10)` is exported to `(20,15)`. -/
theorem get_scaled_maps_ten_ten :
    get_scaled_polygons 800 600 [[((10 : ℤ), (10 : ℤ))]] 400 400 = ([[(20, 15)]], 600, 800) := by
  show ([[(truncQ (lin_trans 10 0 ((min (400 : ℤ) 400 : ℤ) : ℚ) 0 800),
           truncQ (lin_trans 10 0 ((min (400 : ℤ) 400 : ℤ) : ℚ) 0 600))]], (600 : ℤ), (800 : ℤ)) =
        ([[(20, 15)]], 600, 800)
  norm_num [truncQ, lin_trans]

/-- C7: the source transform `lin_trans` contains no guard for the
degenerate case `oldMax == oldMin` — it performs the division
unconditionally and its type has no error outcome — so it does not
implement the guarded, error-reporting behavior the spec requires
(`mapAxisGuarded`, which reports the error as `none` at such inputs,
e.g. at `val = 1, oldMin = oldMax = 0, newMin = 0, newMax = 10`). -/
theorem lin_trans_unguarded :
    ¬ ∀ val om oM nm nM : ℚ,
        mapAxisGuarded val om oM nm nM = some (lin_trans val om oM nm nM) := by
  intro h
  have h0 := h 1 0 0 0 10
  simp [mapAxisGuarded] at h0

/-- C2: the export uses `min(panelWidth, panelHeight)` as the old extent
on both axes (it agrees everywhere with the spec-worded square-extent
export), and it does not use the raw panel width/height per axis: on a
400×200 panel the raw-extent variant disagrees at `(100,100)`. -/
theorem get_scaled_polygons_square_extent :
    (∀ (W H : ℤ) (polys : List (List (ℤ × ℤ))) (pw ph : ℤ),
        (get_scaled_polygons W H polys pw ph).1 = squareExtentExport W H polys pw ph) ∧
    (get_scaled_polygons 800 600 [[((100 : ℤ), (100 : ℤ))]] 400 200).1 ≠
      rawExtentExport 800 600 [[((100 : ℤ), (100 : ℤ))]] 400 200 := by
  constructor
  · intro W H polys pw ph
    rfl
  · have hL : (get_scaled_polygons 800 600 [[((100 : ℤ), (100 : ℤ))]] 400 200).1 =
        [[(400, 300)]] := by
      show [[(truncQ (lin_trans 100 0 ((min (400 : ℤ) 200 : ℤ) : ℚ) 0 800),
              truncQ (lin_trans 100 0 ((min (400 : ℤ) 200 : ℤ) : ℚ) 0 600))]] = [[(400, 300)]]
      norm_num [truncQ, lin_trans]
    have hR : rawExtentExport 800 600 [[((100 : ℤ), (100 : ℤ))]] 400 200 =
        [[(200, 300)]] := by
      show [[(truncQ (lin_trans 100 0 ((400 : ℤ) : ℚ) 0 800),
              truncQ (lin_trans 100 0 ((200 : ℤ) : ℚ) 0 600))]] = [[(200, 300)]]
      norm_num [truncQ, lin_trans]
    rw [hL, hR]
    decide

/-- C10: the exported image-space coordinates are the exact rational
linear-mapping results truncated toward zero back into the integer
array; whenever the panel extent `min pw ph` does not divide
`value · newExtent`, the exported coordinate differs from the exact
rational value. -/
theorem get_scaled_polygons_truncation (W H pw ph : ℤ) (polys : List (List (ℤ × ℤ)))
    (hpw : 0 < pw) (hph : 0 < ph) :
    (get_scaled_polygons W H polys pw ph).1 =
      polys.map (fun poly => poly.map (fun pt =>
        (truncQ (lin_trans (pt.1 : ℚ) 0 ((min pw ph : ℤ) : ℚ) 0 (W : ℚ)),
         truncQ (lin_trans (pt.2 : ℚ) 0 ((min pw ph : ℤ) : ℚ) 0 (H : ℚ))))) ∧
    ∀ x : ℤ, ¬ (min pw ph ∣ x * W) →
      ((truncQ (lin_trans (x : ℚ) 0 ((min pw ph : ℤ) : ℚ) 0 (W : ℚ)) : ℚ) ≠
        lin_trans (x : ℚ) 0 ((min pw ph : ℤ) : ℚ) 0 (W : ℚ)) := by
  constructor
  · rfl
  · intro x hdvd heq
    apply hdvd
    have hm0 : (0 : ℤ) < min pw ph := lt_min hpw hph
    have hmQ : ((min pw ph : ℤ) : ℚ) ≠ 0 := by
      exact_mod_cast hm0.ne'
    have hqval : lin_trans (x : ℚ) 0 ((min pw ph : ℤ) : ℚ) 0 (W : ℚ) *
        ((min pw ph : ℤ) : ℚ) = (x : ℚ) * (W : ℚ) := by
      unfold lin_trans
      field_simp
      ring
    rw [← heq] at hqval
    have hint : truncQ (lin_trans (x : ℚ) 0 ((min pw ph : ℤ) : ℚ) 0 (W : ℚ)) *
        min pw ph = x * W := by
      exact_mod_cast hqval
    exact ⟨truncQ (lin_trans (x : ℚ) 0 ((min pw ph : ℤ) : ℚ) 0 (W : ℚ)),
      hint.symm.trans (mul_comm _ _)⟩

/-- C10 witness: a 2×2 panel and width-3 image; `2 ∤ 1·3`, and the
exported coordinate `1` differs from the exact value `3/2`. -/
theorem get_scaled_polygons_truncation_witness :
    (truncQ (lin_trans ((1 : ℤ) : ℚ) 0 ((min (2 : ℤ) 2 : ℤ) : ℚ) 0 ((3 : ℤ) : ℚ)) : ℚ) ≠
      lin_trans ((1 : ℤ) : ℚ) 0 ((min (2 : ℤ) 2 : ℤ) : ℚ) 0 ((3 : ℤ) : ℚ) :=
  (get_scaled_polygons_truncation 3 3 2 2 [] (by norm_num) (by norm_num)).2 1 (by decide)

/-- C4: `do_undo` clears exactly the candidate list when it is
non-empty (committed polygons and tags untouched); otherwise, with `N ≥ 1`
committed polygons, it removes the last polygon and the last class tag
together, leaving `N−1` of each; with both empty it is the identity. -/
theorem do_undo_correct (s : EditorState)
    (hlen : s.poly_collection.length = s.poly_class.length) :
    (s.candidate_poly_points ≠ [] →
      (do_undo s).candidate_poly_points = [] ∧
      (do_undo s).poly_collection = s.poly_collection ∧
      (do_undo s).poly_class = s.poly_class) ∧
    (s.candidate_poly_points = [] → s.poly_collection ≠ [] →
      (do_undo s).poly_collection = s.poly_collection.dropLast ∧
      (do_undo s).poly_class = s.poly_class.dropLast ∧
      (do_undo s).poly_collection.length = s.poly_collection.length - 1 ∧
      (do_undo s).poly_class.length = s.poly_collection.length - 1) ∧
    (s.candidate_poly_points = [] → s.poly_collection = [] → do_undo s = s) := by
  refine ⟨?_, ?_, ?_⟩
  · intro hne
    have hpos : 0 < s.candidate_poly_points.length := List.length_pos.mpr hne
    simp [do_undo, hpos]
  · intro hc hp
    have hpos : 0 < s.poly_collection.length := List.length_pos.mpr hp
    unfold do_undo
    rw [if_neg (by simp [hc]), if_pos hpos]
    refine ⟨rfl, rfl, by simp [List.length_dropLast], ?_⟩
    simp only [List.length_dropLast]
    omega
  · intro hc hp
    simp [do_undo, hc, hp]

/-- C4 witness: one committed polygon and tag, no candidate points —
undo drops the polygon and its tag together. -/
theorem do_undo_correct_witness :
    (do_undo ⟨[[(1, 2)]], [], none, ["added building"], "added building"⟩).poly_collection
        = [] ∧
    (do_undo ⟨[[(1, 2)]], [], none, ["added building"], "added building"⟩).poly_class = [] := by
  have h := (do_undo_correct ⟨[[(1, 2)]], [], none, ["added building"], "added building"⟩
    rfl).2.1 rfl (by decide)
  exact ⟨h.1, h.2.1⟩

/-- C9: under every sequence of editor operations from the initial
state, the committed polygon list and the class-tag list have the same
length (commit appends to both, undo drops from both, clear empties
both). -/
theorem editor_ops_class_tag_invariant (c0 : String) (ops : List EditorOp) :
    ((ops.foldl editor_step (initEditor c0)).poly_collection).length =
      ((ops.foldl editor_step (initEditor c0)).poly_class).length := by
  suffices h : ∀ s : EditorState, s.poly_collection.length = s.poly_class.length →
      ∀ l : List EditorOp,
        ((l.foldl editor_step s).poly_collection).length =
          ((l.foldl editor_step s).poly_class).length by
    exact h _ rfl ops
  intro s hs l
  induction l generalizing s with
  | nil => simpa using hs
  | cons op rest ih =>
    simp only [List.foldl_cons]
    apply ih
    cases op with
    | leftClick p =>
      simp only [editor_step]
      split <;> simpa using hs
    | rightClick =>
      simp only [editor_step]
      split <;> simp [hs]
    | setClass c => simpa using hs
    | undoBtn =>
      simp only [editor_step, do_undo]
      split
      · simpa using hs
      · split
        · simp [List.length_dropLast, hs]
        · simpa using hs
    | clearPanel => simp [editor_step, editor_clear]
    | loadImage path => simpa using hs

/-- C8: at save time, an empty target path raises the blocking warning,
writes nothing and leaves the editor state untouched; a non-empty target
path with an empty output path silently writes nothing and mutates no
state. -/
theorem proc_results_failure_branches (auto_mode : Bool) (path_B path_OUT : String)
    (ed : EditorState) (skipped : Bool) (W H pw ph : ℤ) :
    (path_B = "" →
      proc_results auto_mode path_B path_OUT ed skipped W H pw ph =
        { warned := true, written := none, editor := ed }) ∧
    (path_B ≠ "" → path_OUT = "" →
      proc_results auto_mode path_B path_OUT ed skipped W H pw ph =
        { warned := false, written := none, editor := ed }) := by
  constructor
  · intro h
    simp [proc_results, h]
  · intro h1 h2
    simp [proc_results, h1, h2]

/-- C8 witness: both failure branches at concrete inputs. -/
theorem proc_results_failure_branches_witness :
    proc_results true "" "o.pickle" (initEditor "c") false 800 600 400 400 =
      { warned := true, written := none, editor := initEditor "c" } ∧
    proc_results true "b.png" "" (initEditor "c") false 800 600 400 400 =
      { warned := false, written := none, editor := initEditor "c" } :=
  ⟨(proc_results_failure_branches true "" "o.pickle" (initEditor "c") false
      800 600 400 400).1 rfl,
   (proc_results_failure_branches true "b.png" "" (initEditor "c") false
      800 600 400 400).2 (by decide) rfl⟩

/-- Decoding undoes point encoding, leaving the remaining tokens. -/
theorem decodePoints_encodePoints (pts : List (ℤ × ℤ)) (rest : List Tok) :
    decodePoints pts.length (encodePoints pts ++ rest) = some (pts, rest) := by
  induction pts with
  | nil => simp [encodePoints, decodePoints]
  | cons pt l ih =>
    simp [encodePoints, decodePoints] at ih ⊢
    simp [ih]

/-- Decoding undoes entry encoding, leaving the remaining tokens. -/
theorem decodeEntry_encodeEntry (e : List (ℤ × ℤ) × String) (rest : List Tok) :
    decodeEntry (encodeEntry e ++ rest) = some (e, rest) := by
  obtain ⟨pts, tag⟩ := e
  simp [encodeEntry, decodeEntry, List.append_assoc]
  rw [decodePoints_encodePoints]
  rfl

/-- Decoding undoes the encoding of an entry list. -/
theorem decodeEntries_encode (es : List (List (ℤ × ℤ) × String)) (rest : List Tok) :
    decodeEntries es.length ((es.map encodeEntry).flatten ++ rest) = some (es, rest) := by
  induction es with
  | nil => simp [decodeEntries]
  | cons e l ih =>
    simp only [List.map_cons, List.flatten_cons, List.length_cons, List.append_assoc]
    simp [decodeEntries, decodeEntry_encodeEntry, ih]

/-- C6: round-trip — loading the record written by `save` returns the
result unchanged, for the skip sentinel and for every polygon/tag list
(in particular lists with duplicate points and single-vertex polygons),
preserving order and the integer coordinates. -/
theorem load_save_roundtrip (r : SerializedResult) : load (save r) = some r := by
  cases r with
  | skipped => simp [load, save]
  | annotated es =>
    simp only [save, load]
    rw [show (es.length : ℤ).toNat = es.length from Int.toNat_natCast _]
    rw [show (es.map encodeEntry).flatten = (es.map encodeEntry).flatten ++ [] from
      (List.append_nil _).symm]
    rw [decodeEntries_encode]
    rfl

/-- C1 counterexample: a reference file whose derived output record is
present in the output listing but whose derived target name is absent
from the target listing is classified `unknown` by the scan, not `done`
as the claim requires. -/
theorem classify_ref_done_counterexample :
    pyContains a_tag "x_2018_y.png" = true ∧
    out_record_name "x_2018_y.png" ∈ ["x_2018-2020_y.pickle"] ∧
    classify_ref "x_2018_y.png" [] ["x_2018-2020_y.pickle"] = PairStatus.unknown ∧
    PairStatus.unknown ≠ PairStatus.done := by decide

/-- C1 (amended): for every reference filename containing the A-tag,
the scan classifies it `done` iff the derived target name is in the
target listing and the derived output name is in the output listing;
`pending` iff the target name is listed but the output name is not; and
`unknown` iff the target name is not in the target listing. -/
theorem classify_ref_trichotomy (a_f : String) (b_files out_files : List String)
    (_h : pyContains a_tag a_f = true) :
    (classify_ref a_f b_files out_files = .done ↔
      ((target_and_out_names a_f).1 ∈ b_files ∧ out_record_name a_f ∈ out_files)) ∧
    (classify_ref a_f b_files out_files = .pending ↔
      ((target_and_out_names a_f).1 ∈ b_files ∧ out_record_name a_f ∉ out_files)) ∧
    (classify_ref a_f b_files out_files = .unknown ↔
      (target_and_out_names a_f).1 ∉ b_files) := by
  unfold classify_ref
  by_cases hb : (target_and_out_names a_f).1 ∈ b_files <;>
    by_cases ho : out_record_name a_f ∈ out_files <;>
      simp [hb, ho]

/-- C1 witness: `site1_2018_A.png` with its target present and no
output record is classified `pending`. -/
theorem classify_ref_trichotomy_witness :
    classify_ref "site1_2018_A.png" ["site1_2020_A.png"] [] = PairStatus.pending := by
  have h := classify_ref_trichotomy "site1_2018_A.png" ["site1_2020_A.png"] [] (by decide)
  exact h.2.1.mpr (by decide)

end FlickerTag
